import Mathlib

/-!
Shallow embedding of the Network-Traffic-Shaping-and-QoS-Simulator core
(TokenBucket.h, PacketQueue.h, Packet.h, Flow.h, StatisticsCollector.h),
with theorems checking the specification's claims against it.

Conventions of the embedding:
* C++ `uint64_t` arithmetic is `Nat` with an explicit `% U64` where the
  source expression can wrap (the token-bucket multiply and add).
* `std::chrono` time points are microsecond counts (`Nat`); the
  high-resolution clock is monotone, so `now - lastUpdate` is `Nat`
  subtraction applied with `lastUpdate ≤ now`.
* `double` values (delay sums, rates in StatisticsCollector) are modelled
  as exact rationals `ℚ`; IEEE rounding is abstracted away.
* The `std::priority_queue` is modelled as the list of buffered packets;
  `top` is the fold maximum with respect to the source's PacketComparator,
  which matches the heap contract (a maximal element, ties arbitrary).
* Calls that block (`dequeue`) are modelled as the state transition taken
  once the condition-variable wait predicate holds; the predicate itself
  is `PacketQueue.waitCondition`.
* Randomness (the uniform draw in the BURSTY branch, the exponential draw
  in the POISSON branch) is passed in as an explicit parameter.
-/

namespace QoSim

/-- Modulus of C++ `uint64_t` arithmetic. -/
def U64 : Nat := 2 ^ 64

/-! ## TokenBucket (src/include/TokenBucket.h) -/

/-- State of `class TokenBucket`: `rate_`, `bucketSize_`, `tokens_`,
`lastUpdate_` (microseconds). -/
structure TokenBucket where
  rate : Nat
  bucketSize : Nat
  tokens : Nat
  lastUpdate : Nat
deriving Repr, DecidableEq

/-- `TokenBucket::TokenBucket(rate, bucketSize)`: starts with a full bucket,
`lastUpdate_ = now`. -/
def TokenBucket.make (rate bucketSize now : Nat) : TokenBucket :=
  { rate := rate, bucketSize := bucketSize, tokens := bucketSize, lastUpdate := now }

/-- The `tokensToAdd` computed inside `TokenBucket::refill`:
`(rate_ * elapsed) / 1000000` in `uint64_t` arithmetic. -/
def TokenBucket.tokensToAdd (b : TokenBucket) (now : Nat) : Nat :=
  b.rate * (now - b.lastUpdate) % U64 / 1000000

/-- `TokenBucket::refill()`: if `tokensToAdd > 0`, set
`tokens_ = min(tokens_ + tokensToAdd, bucketSize_)` and `lastUpdate_ = now`;
otherwise leave the state untouched. -/
def TokenBucket.refill (b : TokenBucket) (now : Nat) : TokenBucket :=
  let add := b.tokensToAdd now
  if 0 < add then
    { b with tokens := min ((b.tokens + add) % U64) b.bucketSize, lastUpdate := now }
  else b

/-- `TokenBucket::consume(n)`: refill, then deduct `n` and return `true`
when `tokens_ >= n`, else return `false` with no further change. -/
def TokenBucket.consume (b : TokenBucket) (now n : Nat) : Bool × TokenBucket :=
  let b1 := b.refill now
  if n ≤ b1.tokens then (true, { b1 with tokens := b1.tokens - n })
  else (false, b1)

/-- `TokenBucket::getTokens()`: refill, then report `tokens_`. -/
def TokenBucket.getTokens (b : TokenBucket) (now : Nat) : Nat × TokenBucket :=
  let b1 := b.refill now
  (b1.tokens, b1)

/-- One externally visible token-bucket call together with its wall-clock
instant: `consume(now, n)` or `getTokens(now)`. -/
inductive BucketOp where
  | consumeOp (now n : Nat)
  | getTokensOp (now : Nat)
deriving Repr, DecidableEq

/-- State transition of one token-bucket call (return value discarded). -/
def TokenBucket.applyOp (b : TokenBucket) : BucketOp → TokenBucket
  | .consumeOp now n => (b.consume now n).2
  | .getTokensOp now => (b.getTokens now).2

/-- Run a sequence of token-bucket calls. -/
def TokenBucket.runOps (b : TokenBucket) (ops : List BucketOp) : TokenBucket :=
  ops.foldl TokenBucket.applyOp b

/-! ## Packet (src/include/Packet.h) -/

/-- `enum class PacketPriority` with its numeric values 0..3. -/
inductive PacketPriority where
  | LOW
  | MEDIUM
  | HIGH
  | CRITICAL
deriving Repr, DecidableEq

/-- Numeric value of a priority, as compared by `operator<` on the enum. -/
def PacketPriority.toNat : PacketPriority → Nat
  | .LOW => 0
  | .MEDIUM => 1
  | .HIGH => 2
  | .CRITICAL => 3

/-- The fields of `class Packet` that the queue consults: flow id, size,
priority and the creation time stamp (microseconds). -/
structure Packet where
  flowId : Nat
  size : Nat
  priority : PacketPriority
  creationTime : Nat
deriving Repr, DecidableEq

/-! ## PacketQueue (src/include/PacketQueue.h) -/

/-- `PacketComparator::operator()(a, b)`: `a` is ordered strictly below `b`
when `a` has the smaller priority value, or equal priority and the later
creation time. -/
def packetLess (a b : Packet) : Bool :=
  if a.priority.toNat ≠ b.priority.toNat then
    decide (a.priority.toNat < b.priority.toNat)
  else
    decide (a.creationTime > b.creationTime)

/-- `std::priority_queue::top()` on contents `p :: rest`: a maximal element
with respect to `packetLess`, obtained as the fold maximum. -/
def pqTop (p : Packet) (rest : List Packet) : Packet :=
  rest.foldl (fun m x => if packetLess m x then x else m) p

/-- State of `class PacketQueue`: the buffered packets (`queue_`, as a
list), `maxSize_`, `currentSize_`, `totalDropped_` and `shutdown_`. -/
structure PacketQueue where
  queue : List Packet
  maxSize : Nat
  currentSize : Nat
  totalDropped : Nat
  shutdownFlag : Bool
deriving Repr, DecidableEq

/-- `PacketQueue::PacketQueue(maxSize)`: empty queue, counters zero,
not shut down. -/
def PacketQueue.make (maxSize : Nat) : PacketQueue :=
  { queue := [], maxSize := maxSize, currentSize := 0, totalDropped := 0,
    shutdownFlag := false }

/-- `PacketQueue::enqueue(p)`: if `currentSize_ >= maxSize_`, count a drop
and return `false`; otherwise push the packet and return `true`. -/
def PacketQueue.enqueue (q : PacketQueue) (p : Packet) : Bool × PacketQueue :=
  if q.maxSize ≤ q.currentSize then
    (false, { q with totalDropped := q.totalDropped + 1 })
  else
    (true, { q with queue := p :: q.queue, currentSize := q.currentSize + 1 })

/-- The predicate of the condition-variable wait inside
`PacketQueue::dequeue`: the queue is non-empty or shut down. -/
def PacketQueue.waitCondition (q : PacketQueue) : Bool :=
  !q.queue.isEmpty || q.shutdownFlag

/-- `PacketQueue::dequeue()` once the wait predicate holds: return the
null sentinel when shut down and empty, otherwise pop the top packet.
(The `[]`-and-not-shut-down branch is unreachable: the wait blocks there.) -/
def PacketQueue.dequeue (q : PacketQueue) : Option Packet × PacketQueue :=
  if q.shutdownFlag && q.queue.isEmpty then (none, q)
  else
    match q.queue with
    | [] => (none, q)
    | p :: rest =>
      let t := pqTop p rest
      (some t, { q with queue := (p :: rest).erase t,
                        currentSize := q.currentSize - 1 })

/-- `PacketQueue::tryDequeue()`: pop the top packet, or return the null
sentinel immediately when empty. -/
def PacketQueue.tryDequeue (q : PacketQueue) : Option Packet × PacketQueue :=
  match q.queue with
  | [] => (none, q)
  | p :: rest =>
    let t := pqTop p rest
    (some t, { q with queue := (p :: rest).erase t,
                      currentSize := q.currentSize - 1 })

/-- `PacketQueue::shutdown()`: set the flag (and broadcast to all
waiters). -/
def PacketQueue.shutdown (q : PacketQueue) : PacketQueue :=
  { q with shutdownFlag := true }

/-- One externally visible queue call: enqueue, blocking dequeue (modelled
at the instant its wait predicate holds), non-blocking dequeue, or
shutdown. -/
inductive QueueOp where
  | enq (p : Packet)
  | deq
  | tryDeq
  | shut
deriving Repr, DecidableEq

/-- State transition of one queue call (return value discarded). -/
def PacketQueue.applyOp (q : PacketQueue) : QueueOp → PacketQueue
  | .enq p => (q.enqueue p).2
  | .deq => q.dequeue.2
  | .tryDeq => q.tryDequeue.2
  | .shut => q.shutdown

/-- Run a sequence of queue calls. -/
def PacketQueue.runOps (q : PacketQueue) (ops : List QueueOp) : PacketQueue :=
  ops.foldl PacketQueue.applyOp q

/-! ## Flow (src/include/Flow.h) -/

/-- `enum class FlowType`. -/
inductive FlowType where
  | CONSTANT_RATE
  | BURSTY
  | POISSON
deriving Repr, DecidableEq

/-- Outcome of the uniform draw `dist(generator_) < 0.3` inside the BURSTY
branch of `Flow::getInterArrivalTime`. -/
inductive BurstyDraw where
  | burst
  | idle
deriving Repr, DecidableEq

/-- State of `class Flow`: configuration fields and the statistics
counters. `totalDelay` models the `std::atomic<double>` delay sum as an
exact rational. -/
structure Flow where
  flowId : Nat
  type : FlowType
  targetRate : Nat
  priority : PacketPriority
  active : Bool
  packetsSent : Nat
  packetsDropped : Nat
  bytesTransmitted : Nat
  totalDelay : ℚ
deriving Repr, DecidableEq

/-- `Flow::Flow(flowId, type, targetRate, priority)`: stores the
configuration unchecked (there is no validation in the constructor) and
zeroes every counter. -/
def Flow.make (flowId : Nat) (type : FlowType) (targetRate : Nat)
    (priority : PacketPriority) : Flow :=
  { flowId := flowId, type := type, targetRate := targetRate,
    priority := priority, active := true, packetsSent := 0,
    packetsDropped := 0, bytesTransmitted := 0, totalDelay := 0 }

/-- `Flow::getInterArrivalTime(avgPacketSize)` (default argument 500),
in microseconds. The BURSTY branch takes the uniform draw's outcome as a
parameter; the POISSON branch takes the exponential sample `poissonDraw`
(in seconds, a nonnegative real modelled as `ℚ`) and returns the
`uint64_t` cast of `poissonDraw * 1e6`. The burst divisor
`targetRate_ * 3` is `uint64_t` arithmetic and wraps, hence `% U64`; the
numerator `avgPacketSize * 1000000ULL` cannot wrap because
`avgPacketSize < 2 ^ 32` and `1000000 < 2 ^ 20`; the remaining divisors
(`targetRate_`, `targetRate_ / 2`) are the stored `uint64_t` values. -/
def Flow.getInterArrivalTime (f : Flow) (draw : BurstyDraw) (poissonDraw : ℚ)
    (avgPacketSize : Nat) : Nat :=
  match f.type with
  | .CONSTANT_RATE => avgPacketSize * 1000000 / f.targetRate
  | .BURSTY =>
    match draw with
    | .burst => avgPacketSize * 1000000 / (f.targetRate * 3 % U64)
    | .idle => avgPacketSize * 1000000 / (f.targetRate / 2)
  | .POISSON => (max poissonDraw 0 * 1000000).floor.toNat

/-- The divisor of the integer division performed on each path of
`Flow::getInterArrivalTime` (the POISSON path performs only
floating-point division, hence `none`). The burst entry is the wrapped
`uint64_t` product `targetRate_ * 3 % 2 ^ 64`, exactly the divisor the
program uses on that path. -/
def Flow.interArrivalDivisor (f : Flow) (draw : BurstyDraw) : Option Nat :=
  match f.type with
  | .CONSTANT_RATE => some f.targetRate
  | .BURSTY =>
    match draw with
    | .burst => some (f.targetRate * 3 % U64)
    | .idle => some (f.targetRate / 2)
  | .POISSON => none

/-- `Flow::getAverageDelay()`: `totalDelay_ / (packetsSent_ -
packetsDropped_)` when that `uint64_t` difference is positive, else 0.
The subtraction wraps modulo `2 ^ 64` exactly as in the source. -/
def Flow.getAverageDelay (f : Flow) : ℚ :=
  let transmitted := (f.packetsSent + U64 - f.packetsDropped) % U64
  if 0 < transmitted then f.totalDelay / (transmitted : ℚ) else 0

/-! ## StatisticsCollector (src/include/StatisticsCollector.h) -/

/-- `struct FlowStats` (the `double` fields as `ℚ`). -/
structure FlowStats where
  flowId : Nat
  packetsSent : Nat
  packetsDropped : Nat
  bytesTransmitted : Nat
  averageDelay : ℚ
  throughput : ℚ
  dropRate : ℚ
deriving Repr, DecidableEq

/-- The per-flow body of `StatisticsCollector::collectStats`: one
`FlowStats` snapshot of `flow` at `elapsed` seconds since start. -/
def collectFlowStats (f : Flow) (elapsed : ℚ) : FlowStats :=
  { flowId := f.flowId
    packetsSent := f.packetsSent
    packetsDropped := f.packetsDropped
    bytesTransmitted := f.bytesTransmitted
    averageDelay := f.getAverageDelay
    throughput := if 0 < elapsed then (f.bytesTransmitted : ℚ) / elapsed else 0
    dropRate := if 0 < f.packetsSent then
        (f.packetsDropped : ℚ) / (f.packetsSent : ℚ) else 0 }

/-! ## Helper lemmas: TokenBucket -/

theorem refill_eq (b : TokenBucket) (now : Nat) :
    b.refill now =
      if 0 < b.tokensToAdd now then
        { b with tokens := min ((b.tokens + b.tokensToAdd now) % U64) b.bucketSize,
                 lastUpdate := now }
      else b := rfl

theorem tokensToAdd_eq (b : TokenBucket) (now : Nat)
    (hmul : b.rate * (now - b.lastUpdate) < U64) :
    b.tokensToAdd now = b.rate * (now - b.lastUpdate) / 1000000 := by
  unfold TokenBucket.tokensToAdd
  rw [Nat.mod_eq_of_lt hmul]

theorem refill_rate (b : TokenBucket) (now : Nat) : (b.refill now).rate = b.rate := by
  rw [refill_eq]
  split <;> rfl

theorem refill_bucketSize (b : TokenBucket) (now : Nat) :
    (b.refill now).bucketSize = b.bucketSize := by
  rw [refill_eq]
  split <;> rfl

theorem refill_tokens_le (b : TokenBucket) (now : Nat) (h : b.tokens ≤ b.bucketSize) :
    (b.refill now).tokens ≤ b.bucketSize := by
  rw [refill_eq]
  split
  · exact min_le_right _ _
  · exact h

theorem consume_eq (b : TokenBucket) (now n : Nat) :
    b.consume now n =
      if n ≤ (b.refill now).tokens then
        (true, { b.refill now with tokens := (b.refill now).tokens - n })
      else (false, b.refill now) := rfl

theorem applyOp_bucketSize (b : TokenBucket) (op : BucketOp) :
    (b.applyOp op).bucketSize = b.bucketSize := by
  cases op with
  | consumeOp now n =>
    show (b.consume now n).2.bucketSize = b.bucketSize
    rw [consume_eq]
    split
    · exact refill_bucketSize b now
    · exact refill_bucketSize b now
  | getTokensOp now =>
    exact refill_bucketSize b now

theorem applyOp_tokens_le (b : TokenBucket) (op : BucketOp)
    (h : b.tokens ≤ b.bucketSize) : (b.applyOp op).tokens ≤ (b.applyOp op).bucketSize := by
  rw [applyOp_bucketSize]
  cases op with
  | consumeOp now n =>
    show (b.consume now n).2.tokens ≤ b.bucketSize
    rw [consume_eq]
    split
    · exact le_trans (Nat.sub_le _ _) (refill_tokens_le b now h)
    · exact refill_tokens_le b now h
  | getTokensOp now =>
    exact refill_tokens_le b now h

theorem runOps_tokens_le (ops : List BucketOp) (b : TokenBucket)
    (h : b.tokens ≤ b.bucketSize) :
    (b.runOps ops).tokens ≤ (b.runOps ops).bucketSize := by
  induction ops generalizing b with
  | nil => exact h
  | cons op ops ih =>
    show ((b.applyOp op).runOps ops).tokens ≤ ((b.applyOp op).runOps ops).bucketSize
    exact ih (b.applyOp op) (by simpa [applyOp_bucketSize] using applyOp_tokens_le b op h)

theorem runOps_bucketSize (ops : List BucketOp) (b : TokenBucket) :
    (b.runOps ops).bucketSize = b.bucketSize := by
  induction ops generalizing b with
  | nil => rfl
  | cons op ops ih =>
    show ((b.applyOp op).runOps ops).bucketSize = b.bucketSize
    rw [ih, applyOp_bucketSize]

/-! ## Claim theorems: TokenBucket -/

/-- C1: on every refill the token bucket computes the elapsed microseconds
since the last refill, adds `floor(rate * elapsed / 1000000)` tokens capped
at the capacity, advances `lastUpdate` to `now` exactly when that amount is
strictly positive (otherwise the state is untouched); consequently the
token count stays at most the capacity — over any sequence of calls on a
freshly constructed bucket — and never decreases across a refill. -/
theorem refill_algorithm_spec (b : TokenBucket) (now r c t0 : Nat) (ops : List BucketOp)
    (hcap : b.tokens ≤ b.bucketSize)
    (hmul : b.rate * (now - b.lastUpdate) < U64)
    (hsum : b.bucketSize + b.rate * (now - b.lastUpdate) / 1000000 < U64) :
    (0 < b.rate * (now - b.lastUpdate) / 1000000 →
      (b.refill now).tokens
          = min (b.tokens + b.rate * (now - b.lastUpdate) / 1000000) b.bucketSize
      ∧ (b.refill now).lastUpdate = now)
    ∧ (b.rate * (now - b.lastUpdate) / 1000000 = 0 → b.refill now = b)
    ∧ (b.refill now).tokens ≤ b.bucketSize
    ∧ b.tokens ≤ (b.refill now).tokens
    ∧ ((TokenBucket.make r c t0).runOps ops).tokens ≤ c := by
  have hadd := tokensToAdd_eq b now hmul
  have hmod : (b.tokens + b.tokensToAdd now) % U64 = b.tokens + b.tokensToAdd now := by
    apply Nat.mod_eq_of_lt
    omega
  refine ⟨?_, ?_, refill_tokens_le b now hcap, ?_, ?_⟩
  · intro hpos
    rw [refill_eq, if_pos (by rw [hadd]; exact hpos)]
    rw [hmod, hadd]
    exact ⟨rfl, rfl⟩
  · intro hzero
    rw [refill_eq, if_neg (by rw [hadd, hzero]; exact Nat.lt_irrefl 0)]
  · by_cases hpos : 0 < b.tokensToAdd now
    · rw [refill_eq, if_pos hpos]
      rw [hmod]
      exact Nat.le_min.mpr ⟨Nat.le_add_right _ _, hcap⟩
    · rw [refill_eq, if_neg hpos]
  · have h := runOps_tokens_le ops (TokenBucket.make r c t0) (le_refl c)
    rwa [runOps_bucketSize] at h

theorem refill_algorithm_spec_witness :
    (TokenBucket.refill ⟨1000000, 1000, 500, 0⟩ 100).tokens
      = min (500 + 1000000 * (100 - 0) / 1000000) 1000 :=
  ((refill_algorithm_spec ⟨1000000, 1000, 500, 0⟩ 100 5 7 0 []
    (by decide) (by decide) (by decide)).1 (by decide)).1

/-- C2: `consume(n)` first refills from elapsed wall time, then returns
`true` and deducts exactly `n` tokens when the refilled token count is at
least `n`; otherwise it returns `false` and the state is exactly the
refilled state, with nothing deducted. -/
theorem consume_spec (b : TokenBucket) (now n : Nat) :
    (n ≤ (b.refill now).tokens →
      (b.consume now n).1 = true
      ∧ (b.consume now n).2.tokens + n = (b.refill now).tokens
      ∧ (b.consume now n).2.lastUpdate = (b.refill now).lastUpdate
      ∧ (b.consume now n).2.rate = b.rate
      ∧ (b.consume now n).2.bucketSize = b.bucketSize)
    ∧ ((b.refill now).tokens < n →
      (b.consume now n).1 = false ∧ (b.consume now n).2 = b.refill now) := by
  constructor
  · intro h
    unfold TokenBucket.consume
    rw [if_pos h]
    exact ⟨rfl, Nat.sub_add_cancel h, rfl, refill_rate b now, refill_bucketSize b now⟩
  · intro h
    unfold TokenBucket.consume
    rw [if_neg (by omega)]
    exact ⟨rfl, rfl⟩

theorem consume_spec_witness :
    (TokenBucket.consume ⟨1000000, 1000, 500, 0⟩ 100 300).2.tokens + 300
      = (TokenBucket.refill ⟨1000000, 1000, 500, 0⟩ 100).tokens :=
  ((consume_spec ⟨1000000, 1000, 500, 0⟩ 100 300).1 (by decide)).2.1

/-- C10: a newly constructed TokenBucket starts full — its token count
equals the configured capacity, the first `getTokens` observation still
returns the capacity, and an immediate `consume` of up to the capacity
succeeds. -/
theorem fresh_bucket_full_spec (r c t0 now n : Nat)
    (hmul : r * (now - t0) < U64)
    (hsum : c + r * (now - t0) / 1000000 < U64)
    (hn : n ≤ c) :
    (TokenBucket.make r c t0).tokens = c
    ∧ ((TokenBucket.make r c t0).getTokens now).1 = c
    ∧ ((TokenBucket.make r c t0).consume now n).1 = true := by
  have hadd : (TokenBucket.make r c t0).tokensToAdd now = r * (now - t0) / 1000000 :=
    tokensToAdd_eq ⟨r, c, c, t0⟩ now hmul
  have hrefill : ((TokenBucket.make r c t0).refill now).tokens = c := by
    by_cases hpos : 0 < (TokenBucket.make r c t0).tokensToAdd now
    · rw [refill_eq, if_pos hpos]
      show min ((c + (TokenBucket.make r c t0).tokensToAdd now) % U64) c = c
      rw [hadd, Nat.mod_eq_of_lt (by omega)]
      omega
    · rw [refill_eq, if_neg hpos]
      rfl
  refine ⟨rfl, hrefill, ?_⟩
  unfold TokenBucket.consume
  rw [if_pos (by rw [hrefill]; exact hn)]

theorem fresh_bucket_full_spec_witness :
    (TokenBucket.make 1000 64000 0).tokens = 64000
    ∧ ((TokenBucket.make 1000 64000 0).getTokens 2000000).1 = 64000
    ∧ ((TokenBucket.make 1000 64000 0).consume 2000000 64000).1 = true :=
  fresh_bucket_full_spec 1000 64000 0 2000000 64000 (by decide) (by decide) (by decide)

/-! ## Helper lemmas: PacketComparator and the heap top -/

theorem packetLess_iff (a b : Packet) :
    packetLess a b = true ↔
      (a.priority.toNat < b.priority.toNat ∨
       (a.priority.toNat = b.priority.toNat ∧ b.creationTime < a.creationTime)) := by
  unfold packetLess
  by_cases h : a.priority.toNat = b.priority.toNat <;> simp [h]

theorem packetLess_false_iff (a b : Packet) :
    packetLess a b = false ↔
      (b.priority.toNat < a.priority.toNat ∨
       (a.priority.toNat = b.priority.toNat ∧ a.creationTime ≤ b.creationTime)) := by
  rw [Bool.eq_false_iff, Ne, packetLess_iff]
  omega

theorem packetLess_trans {a b c : Packet} (h1 : packetLess a b = true)
    (h2 : packetLess b c = true) : packetLess a c = true := by
  rw [packetLess_iff] at h1 h2 ⊢
  omega

theorem packetLess_false_trans {a b c : Packet} (h1 : packetLess a b = false)
    (h2 : packetLess b c = false) : packetLess a c = false := by
  rw [packetLess_false_iff] at h1 h2 ⊢
  omega

theorem pqTop_cons (p y : Packet) (rest : List Packet) :
    pqTop p (y :: rest) = pqTop (if packetLess p y then y else p) rest := rfl

theorem pqTop_mem (p : Packet) (rest : List Packet) : pqTop p rest ∈ p :: rest := by
  induction rest generalizing p with
  | nil => simp [pqTop]
  | cons y rest ih =>
    rw [pqTop_cons]
    rcases List.mem_cons.mp (ih (if packetLess p y then y else p)) with h | h
    · rw [h]
      by_cases hpy : packetLess p y = true
      · simp [hpy]
      · simp [hpy]
    · simp [List.mem_cons.mpr (Or.inr (List.mem_cons.mpr (Or.inr h)))]

theorem pqTop_not_less (p : Packet) (rest : List Packet) :
    ∀ x ∈ p :: rest, packetLess (pqTop p rest) x = false := by
  induction rest generalizing p with
  | nil =>
    intro x hx
    rw [List.mem_singleton] at hx
    subst hx
    show packetLess x x = false
    rw [packetLess_false_iff]
    omega
  | cons y rest ih =>
    intro x hx
    rw [pqTop_cons]
    cases hpy : packetLess p y with
    | true =>
      rw [if_pos rfl]
      have hty : packetLess (pqTop y rest) y = false :=
        ih y y (List.mem_cons_self y rest)
      rcases List.mem_cons.mp hx with hxp | hx2
      · subst hxp
        cases hc : packetLess (pqTop y rest) x with
        | false => rfl
        | true =>
          have habs := packetLess_trans hc hpy
          rw [hty] at habs
          exact Bool.noConfusion habs
      · exact ih y x hx2
    | false =>
      rw [if_neg Bool.false_ne_true]
      have htp : packetLess (pqTop p rest) p = false :=
        ih p p (List.mem_cons_self p rest)
      rcases List.mem_cons.mp hx with hxp | hx2
      · subst hxp
        exact htp
      · rcases List.mem_cons.mp hx2 with hxy | hx3
        · subst hxy
          exact packetLess_false_trans htp hpy
        · exact ih p x (List.mem_cons.mpr (Or.inr hx3))

theorem pqTop_max_priority (p : Packet) (rest : List Packet) :
    ∀ x ∈ p :: rest,
      x.priority.toNat ≤ (pqTop p rest).priority.toNat
      ∧ (x.priority.toNat = (pqTop p rest).priority.toNat →
          (pqTop p rest).creationTime ≤ x.creationTime) := by
  intro x hx
  have h := pqTop_not_less p rest x hx
  rw [packetLess_false_iff] at h
  omega

/-! ## Helper lemmas: PacketQueue -/

theorem tryDequeue_nil (q : PacketQueue) (hq : q.queue = []) :
    q.tryDequeue = (none, q) := by
  unfold PacketQueue.tryDequeue
  rw [hq]

theorem tryDequeue_cons (q : PacketQueue) (p : Packet) (rest : List Packet)
    (hq : q.queue = p :: rest) :
    q.tryDequeue = (some (pqTop p rest),
      { q with queue := (p :: rest).erase (pqTop p rest),
               currentSize := q.currentSize - 1 }) := by
  unfold PacketQueue.tryDequeue
  rw [hq]

theorem dequeue_nil (q : PacketQueue) (hq : q.queue = []) : q.dequeue = (none, q) := by
  unfold PacketQueue.dequeue
  rw [hq]
  cases q.shutdownFlag <;> rfl

theorem dequeue_cons (q : PacketQueue) (p : Packet) (rest : List Packet)
    (hq : q.queue = p :: rest) :
    q.dequeue = (some (pqTop p rest),
      { q with queue := (p :: rest).erase (pqTop p rest),
               currentSize := q.currentSize - 1 }) := by
  unfold PacketQueue.dequeue
  rw [hq]
  simp only [List.isEmpty_cons, Bool.and_false]
  rw [if_neg Bool.false_ne_true]

theorem applyOp_enq (q : PacketQueue) (p : Packet) :
    q.applyOp (QueueOp.enq p) = (q.enqueue p).2 := rfl

theorem applyOp_deq (q : PacketQueue) : q.applyOp QueueOp.deq = q.dequeue.2 := rfl

theorem applyOp_tryDeq (q : PacketQueue) :
    q.applyOp QueueOp.tryDeq = q.tryDequeue.2 := rfl

theorem applyOp_shut (q : PacketQueue) : q.applyOp QueueOp.shut = q.shutdown := rfl

theorem enqueue_full (q : PacketQueue) (p : Packet) (h : q.maxSize ≤ q.currentSize) :
    q.enqueue p = (false, { q with totalDropped := q.totalDropped + 1 }) := by
  unfold PacketQueue.enqueue
  rw [if_pos h]

theorem enqueue_room (q : PacketQueue) (p : Packet) (h : q.currentSize < q.maxSize) :
    q.enqueue p =
      (true, { q with queue := p :: q.queue, currentSize := q.currentSize + 1 }) := by
  unfold PacketQueue.enqueue
  rw [if_neg (by omega)]

theorem applyOp_size (q : PacketQueue) (op : QueueOp)
    (h1 : q.currentSize = q.queue.length) (h2 : q.currentSize ≤ q.maxSize) :
    (q.applyOp op).currentSize = (q.applyOp op).queue.length
    ∧ (q.applyOp op).currentSize ≤ (q.applyOp op).maxSize
    ∧ (q.applyOp op).maxSize = q.maxSize := by
  cases op with
  | enq p =>
    rw [applyOp_enq]
    by_cases hfull : q.maxSize ≤ q.currentSize
    · rw [enqueue_full q p hfull]
      exact ⟨h1, h2, rfl⟩
    · rw [enqueue_room q p (by omega)]
      refine ⟨?_, ?_, rfl⟩
      · show q.currentSize + 1 = (p :: q.queue).length
        simp [h1]
      · show q.currentSize + 1 ≤ q.maxSize
        omega
  | deq =>
    rw [applyOp_deq]
    cases hq : q.queue with
    | nil =>
      rw [dequeue_nil q hq]
      exact ⟨h1, h2, rfl⟩
    | cons p rest =>
      rw [dequeue_cons q p rest hq]
      have hlen := List.length_erase_add_one (pqTop_mem p rest)
      refine ⟨?_, ?_, rfl⟩
      · show q.currentSize - 1 = ((p :: rest).erase (pqTop p rest)).length
        rw [h1, hq]
        omega
      · show q.currentSize - 1 ≤ q.maxSize
        omega
  | tryDeq =>
    rw [applyOp_tryDeq]
    cases hq : q.queue with
    | nil =>
      rw [tryDequeue_nil q hq]
      exact ⟨h1, h2, rfl⟩
    | cons p rest =>
      rw [tryDequeue_cons q p rest hq]
      have hlen := List.length_erase_add_one (pqTop_mem p rest)
      refine ⟨?_, ?_, rfl⟩
      · show q.currentSize - 1 = ((p :: rest).erase (pqTop p rest)).length
        rw [h1, hq]
        omega
      · show q.currentSize - 1 ≤ q.maxSize
        omega
  | shut =>
    exact ⟨h1, h2, rfl⟩

theorem runOps_size (ops : List QueueOp) (q : PacketQueue)
    (h1 : q.currentSize = q.queue.length) (h2 : q.currentSize ≤ q.maxSize) :
    (q.runOps ops).currentSize = (q.runOps ops).queue.length
    ∧ (q.runOps ops).currentSize ≤ (q.runOps ops).maxSize
    ∧ (q.runOps ops).maxSize = q.maxSize := by
  induction ops generalizing q with
  | nil => exact ⟨h1, h2, rfl⟩
  | cons op ops ih =>
    have h := applyOp_size q op h1 h2
    have h3 := ih (q.applyOp op) h.1 h.2.1
    exact ⟨h3.1, h3.2.1, h.2.2 ▸ h3.2.2⟩

/-! ## Claim theorems: PacketQueue -/

/-- C3: over every sequence of enqueue/dequeue/shutdown calls starting
from a freshly constructed queue, the size never exceeds `maxSize` (both
the `currentSize_` counter and the number of buffered packets); an
enqueue when the size equals `maxSize` increments `totalDropped`, returns
`false` and leaves the buffered packets untouched (tail drop, never head
drop); an enqueue when the size is below `maxSize` inserts the packet and
returns `true`. -/
theorem queue_capacity_spec (m : Nat) (ops : List QueueOp) (q : PacketQueue) (p : Packet) :
    ((PacketQueue.make m).runOps ops).currentSize ≤ m
    ∧ ((PacketQueue.make m).runOps ops).queue.length ≤ m
    ∧ (q.currentSize = q.maxSize →
        (q.enqueue p).1 = false
        ∧ (q.enqueue p).2.totalDropped = q.totalDropped + 1
        ∧ (q.enqueue p).2.queue = q.queue
        ∧ (q.enqueue p).2.currentSize = q.currentSize)
    ∧ (q.currentSize < q.maxSize →
        (q.enqueue p).1 = true
        ∧ (q.enqueue p).2.queue = p :: q.queue
        ∧ (q.enqueue p).2.currentSize = q.currentSize + 1
        ∧ (q.enqueue p).2.totalDropped = q.totalDropped) := by
  have h := runOps_size ops (PacketQueue.make m) rfl (Nat.zero_le m)
  refine ⟨?_, ?_, ?_, ?_⟩
  · have hc := h.2.1
    rw [h.2.2] at hc
    exact hc
  · have hc := h.2.1
    rw [h.1, h.2.2] at hc
    exact hc
  · intro heq
    rw [enqueue_full q p (le_of_eq heq.symm)]
    exact ⟨rfl, rfl, rfl, rfl⟩
  · intro hlt
    rw [enqueue_room q p hlt]
    exact ⟨rfl, rfl, rfl, rfl⟩

theorem queue_capacity_spec_witness :
    ((PacketQueue.make 2).runOps [QueueOp.enq ⟨1, 100, PacketPriority.LOW, 5⟩,
        QueueOp.enq ⟨2, 100, PacketPriority.HIGH, 6⟩,
        QueueOp.enq ⟨3, 100, PacketPriority.MEDIUM, 7⟩]).currentSize ≤ 2 :=
  (queue_capacity_spec 2 [QueueOp.enq ⟨1, 100, PacketPriority.LOW, 5⟩,
      QueueOp.enq ⟨2, 100, PacketPriority.HIGH, 6⟩,
      QueueOp.enq ⟨3, 100, PacketPriority.MEDIUM, 7⟩]
    (PacketQueue.make 0) ⟨0, 0, PacketPriority.LOW, 0⟩).1

/-- C4: on every non-empty queue, both the blocking and the non-blocking
dequeue return a buffered packet whose priority value is maximal, and
whose creation time is smallest among packets of that priority, removing
exactly that packet from the buffer. -/
theorem dequeue_priority_spec (q : PacketQueue) (p : Packet) (rest : List Packet)
    (hq : q.queue = p :: rest) :
    q.tryDequeue.1 = some (pqTop p rest)
    ∧ q.dequeue.1 = some (pqTop p rest)
    ∧ pqTop p rest ∈ q.queue
    ∧ (∀ x ∈ q.queue, x.priority.toNat ≤ (pqTop p rest).priority.toNat
        ∧ (x.priority.toNat = (pqTop p rest).priority.toNat →
            (pqTop p rest).creationTime ≤ x.creationTime))
    ∧ q.tryDequeue.2.queue = q.queue.erase (pqTop p rest)
    ∧ q.dequeue.2.queue = q.queue.erase (pqTop p rest) := by
  refine ⟨?_, ?_, ?_, ?_, ?_, ?_⟩
  · rw [tryDequeue_cons q p rest hq]
  · rw [dequeue_cons q p rest hq]
  · rw [hq]
    exact pqTop_mem p rest
  · intro x hx
    rw [hq] at hx
    exact pqTop_max_priority p rest x hx
  · rw [tryDequeue_cons q p rest hq, hq]
  · rw [dequeue_cons q p rest hq, hq]

theorem dequeue_priority_spec_witness :
    (⟨[⟨1, 10, PacketPriority.LOW, 5⟩, ⟨2, 20, PacketPriority.HIGH, 9⟩], 10, 2, 0, false⟩ :
        PacketQueue).tryDequeue.1
      = some (pqTop ⟨1, 10, PacketPriority.LOW, 5⟩ [⟨2, 20, PacketPriority.HIGH, 9⟩]) :=
  (dequeue_priority_spec
    ⟨[⟨1, 10, PacketPriority.LOW, 5⟩, ⟨2, 20, PacketPriority.HIGH, 9⟩], 10, 2, 0, false⟩
    ⟨1, 10, PacketPriority.LOW, 5⟩ [⟨2, 20, PacketPriority.HIGH, 9⟩] rfl).1

/-- C5: the blocking dequeue proceeds once its wait condition (queue
non-empty or shut down) holds; it returns the null sentinel exactly when
the queue has been shut down and is empty, leaving the state unchanged,
and otherwise pops the maximum-priority packet. After `shutdown` the wait
condition holds in every state, so every blocked dequeuer is woken. -/
theorem blocking_dequeue_spec (q q2 : PacketQueue) (hw : q.waitCondition = true) :
    (q.dequeue.1 = none ↔ (q.shutdownFlag = true ∧ q.queue = []))
    ∧ (q.queue = [] → q.dequeue.2 = q)
    ∧ (∀ p rest, q.queue = p :: rest →
        q.dequeue.1 = some (pqTop p rest)
        ∧ (∀ x ∈ q.queue, x.priority.toNat ≤ (pqTop p rest).priority.toNat)
        ∧ q.dequeue.2.queue = q.queue.erase (pqTop p rest))
    ∧ q2.shutdown.waitCondition = true := by
  refine ⟨?_, ?_, ?_, ?_⟩
  · cases hq : q.queue with
    | nil =>
      have hflag : q.shutdownFlag = true := by
        unfold PacketQueue.waitCondition at hw
        rw [hq] at hw
        simpa using hw
      rw [dequeue_nil q hq]
      simp [hflag]
    | cons p rest =>
      rw [dequeue_cons q p rest hq]
      simp [hq]
  · intro hq
    rw [dequeue_nil q hq]
  · intro p rest hq
    refine ⟨?_, ?_, ?_⟩
    · rw [dequeue_cons q p rest hq]
    · intro x hx
      rw [hq] at hx
      exact (pqTop_max_priority p rest x hx).1
    · rw [dequeue_cons q p rest hq, hq]
  · unfold PacketQueue.waitCondition PacketQueue.shutdown
    simp

theorem blocking_dequeue_spec_witness :
    (⟨[], 5, 0, 0, true⟩ : PacketQueue).dequeue.1 = none :=
  (blocking_dequeue_spec ⟨[], 5, 0, 0, true⟩ (PacketQueue.make 1) (by decide)).1.mpr
    ⟨rfl, rfl⟩

/-- C9: enqueue never consults the shutdown flag: enqueueing into a
shut-down queue behaves exactly as into a live queue — same return value,
same resulting state apart from the flag — and in particular a shut-down
queue that is not full accepts the packet and returns `true`. -/
theorem enqueue_after_shutdown_spec (q : PacketQueue) (p : Packet) :
    (q.shutdown.enqueue p).1 = (q.enqueue p).1
    ∧ (q.shutdown.enqueue p).2 = ((q.enqueue p).2).shutdown
    ∧ (q.currentSize < q.maxSize →
        (q.shutdown.enqueue p).1 = true
        ∧ (q.shutdown.enqueue p).2.queue = p :: q.queue
        ∧ (q.shutdown.enqueue p).2.shutdownFlag = true) := by
  by_cases hfull : q.maxSize ≤ q.currentSize
  · have h1 := enqueue_full q p hfull
    have h2 := enqueue_full q.shutdown p hfull
    rw [h1, h2]
    refine ⟨rfl, rfl, ?_⟩
    intro h
    omega
  · have hlt : q.currentSize < q.maxSize := by omega
    have h1 := enqueue_room q p hlt
    have h2 := enqueue_room q.shutdown p hlt
    rw [h1, h2]
    exact ⟨rfl, rfl, fun _ => ⟨rfl, rfl, rfl⟩⟩

theorem enqueue_after_shutdown_spec_witness :
    ((PacketQueue.make 3).shutdown.enqueue ⟨1, 64, PacketPriority.LOW, 0⟩).1 = true :=
  ((enqueue_after_shutdown_spec (PacketQueue.make 3) ⟨1, 64, PacketPriority.LOW, 0⟩).2.2
    (by decide)).1

/-! ## Helper lemmas: Flow and StatisticsCollector -/

theorem burst_divisor_pos (r : Nat) (hr : 2 ≤ r) (hlt : r < U64) :
    0 < r * 3 % U64 := by
  rcases Nat.eq_zero_or_pos (r * 3 % U64) with h | h
  · exfalso
    have hdvd : U64 ∣ r * 3 := Nat.dvd_of_mod_eq_zero h
    have hcop : Nat.Coprime U64 3 := by decide
    have hr2 : U64 ∣ r := hcop.dvd_of_dvd_mul_right hdvd
    have := Nat.le_of_dvd (by omega) hr2
    omega
  · exact h

theorem getAverageDelay_eq (f : Flow) :
    f.getAverageDelay =
      if 0 < (f.packetsSent + U64 - f.packetsDropped) % U64 then
        f.totalDelay / (((f.packetsSent + U64 - f.packetsDropped) % U64 : Nat) : ℚ)
      else 0 := rfl

/-! ## Claim theorems: Flow and StatisticsCollector -/

/-- C6 counterexample: the Flow constructor performs no validation, so a
flow with `targetRate = 0` is constructed and the CONSTANT_RATE
inter-arrival computation then divides by zero; likewise a bursty flow
with `targetRate = 1` divides by zero on the idle path, because the
divisor is the integer `targetRate / 2 = 0`. -/
theorem flow_validation_cex :
    (Flow.make 0 FlowType.CONSTANT_RATE 0 PacketPriority.MEDIUM).interArrivalDivisor
        BurstyDraw.burst = some 0
    ∧ (Flow.make 1 FlowType.BURSTY 1 PacketPriority.MEDIUM).interArrivalDivisor
        BurstyDraw.idle = some 0 := ⟨rfl, rfl⟩

/-- C6 (amended): the Flow constructor performs no validation, so rate 0
(any type) and rate 1 (bursty idle path) make `getInterArrivalTime`
divide by zero; under the precondition `2 ≤ targetRate` — with
`targetRate < 2 ^ 64` as any stored `uint64_t` value is — every integer
division in `getInterArrivalTime` has a strictly positive divisor
(including the wrapped burst divisor `targetRate · 3 mod 2 ^ 64`), for
every flow type and every draw. -/
theorem flow_no_divzero (id r : Nat) (ty : FlowType) (pr : PacketPriority)
    (draw : BurstyDraw) (d : Nat) (hr : 2 ≤ r) (hlt : r < U64)
    (hd : (Flow.make id ty r pr).interArrivalDivisor draw = some d) : 0 < d := by
  cases ty with
  | CONSTANT_RATE =>
    simp only [Flow.interArrivalDivisor, Flow.make, Option.some.injEq] at hd
    omega
  | BURSTY =>
    cases draw with
    | burst =>
      simp only [Flow.interArrivalDivisor, Flow.make, Option.some.injEq] at hd
      exact hd ▸ burst_divisor_pos r hr hlt
    | idle =>
      simp only [Flow.interArrivalDivisor, Flow.make, Option.some.injEq] at hd
      omega
  | POISSON =>
    simp only [Flow.interArrivalDivisor, Flow.make, reduceCtorEq] at hd

theorem flow_no_divzero_witness :
    2 ≤ 2
    ∧ 2 < U64
    ∧ (Flow.make 6 FlowType.BURSTY 2 PacketPriority.MEDIUM).interArrivalDivisor
        BurstyDraw.idle = some 1
    ∧ 0 < 1 :=
  ⟨by decide, by decide, rfl,
    flow_no_divzero 6 2 FlowType.BURSTY PacketPriority.MEDIUM BurstyDraw.idle 1
      (by decide) (by decide) rfl⟩

/-- C7 counterexample: for a bursty flow with target rate R = 3 (odd) and
average packet size 500 the idle-case gap computed by the source is
`500·10⁶ / (3 / 2) = 500000000` µs, whereas the claim's formula
`500·10⁶·2 / 3` gives `333333333` µs. -/
theorem bursty_idle_cex :
    (Flow.make 7 FlowType.BURSTY 3 PacketPriority.MEDIUM).getInterArrivalTime
        BurstyDraw.idle 0 500 = 500000000
    ∧ 500 * 1000000 * 2 / 3 = 333333333
    ∧ (Flow.make 7 FlowType.BURSTY 3 PacketPriority.MEDIUM).getInterArrivalTime
        BurstyDraw.idle 0 500 ≠ 500 * 1000000 * 2 / 3 := by
  refine ⟨rfl, rfl, ?_⟩
  decide

/-- C7 (amended): for a bursty flow with target rate R and average packet
size `a`, the burst case returns `a·10⁶ / (3R)` µs whenever the `uint64_t`
product `R · 3` does not wrap (stays below `2 ^ 64`); the idle case
returns `a·10⁶ / (R / 2)` µs with the integer division `R / 2`, which
coincides with the claimed `a·10⁶·2 / R` whenever R is even (for odd R
the two can differ, as at R = 3). -/
theorem bursty_interarrival_spec (id r : Nat) (pr : PacketPriority) (d : ℚ) (a : Nat) :
    (r * 3 < U64 →
      (Flow.make id FlowType.BURSTY r pr).getInterArrivalTime BurstyDraw.burst d a
        = a * 1000000 / (3 * r))
    ∧ (Flow.make id FlowType.BURSTY r pr).getInterArrivalTime BurstyDraw.idle d a
        = a * 1000000 / (r / 2)
    ∧ (r % 2 = 0 →
        (Flow.make id FlowType.BURSTY r pr).getInterArrivalTime BurstyDraw.idle d a
          = a * 1000000 * 2 / r) := by
  refine ⟨?_, rfl, ?_⟩
  · intro hb
    show a * 1000000 / (r * 3 % U64) = a * 1000000 / (3 * r)
    rw [Nat.mod_eq_of_lt hb, Nat.mul_comm r 3]
  · intro hr
    obtain ⟨k, rfl⟩ : ∃ k, r = 2 * k := ⟨r / 2, by omega⟩
    show a * 1000000 / (2 * k / 2) = a * 1000000 * 2 / (2 * k)
    rw [Nat.mul_div_cancel_left k (by omega : 0 < 2)]
    rw [Nat.mul_comm (a * 1000000) 2]
    rw [Nat.mul_div_mul_left (a * 1000000) k (by omega : 0 < 2)]

theorem bursty_interarrival_spec_witness :
    4 * 3 < U64
    ∧ (Flow.make 8 FlowType.BURSTY 4 PacketPriority.MEDIUM).getInterArrivalTime
        BurstyDraw.burst 0 500 = 500 * 1000000 / (3 * 4)
    ∧ 4 % 2 = 0
    ∧ (Flow.make 8 FlowType.BURSTY 4 PacketPriority.MEDIUM).getInterArrivalTime
        BurstyDraw.idle 0 500 = 500 * 1000000 * 2 / 4 :=
  ⟨by decide,
   (bursty_interarrival_spec 8 4 PacketPriority.MEDIUM 0 500).1 (by decide),
   by decide,
   (bursty_interarrival_spec 8 4 PacketPriority.MEDIUM 0 500).2.2 (by decide)⟩

/-- C8: the reported average delay equals `totalDelay` divided by
`packetsSent − packetsDropped` and equals 0 when that denominator is 0;
the collector's per-flow drop rate equals `packetsDropped / packetsSent`
and equals 0 when `packetsSent` is 0 (`double` arithmetic modelled as
exact rationals). -/
theorem stats_formulas_spec (f : Flow) (e : ℚ)
    (hle : f.packetsDropped ≤ f.packetsSent) (hlt : f.packetsSent < U64) :
    (f.packetsDropped < f.packetsSent →
      f.getAverageDelay
        = f.totalDelay / ((f.packetsSent - f.packetsDropped : Nat) : ℚ))
    ∧ (f.packetsSent = f.packetsDropped → f.getAverageDelay = 0)
    ∧ (collectFlowStats f e).averageDelay = f.getAverageDelay
    ∧ (0 < f.packetsSent →
        (collectFlowStats f e).dropRate
          = (f.packetsDropped : ℚ) / (f.packetsSent : ℚ))
    ∧ (f.packetsSent = 0 → (collectFlowStats f e).dropRate = 0) := by
  have h64 : U64 = 18446744073709551616 := by norm_num [U64]
  have hsub : (f.packetsSent + U64 - f.packetsDropped) % U64
      = f.packetsSent - f.packetsDropped := by
    rw [h64] at hlt ⊢
    omega
  refine ⟨?_, ?_, rfl, ?_, ?_⟩
  · intro h
    rw [getAverageDelay_eq, hsub, if_pos (by omega)]
  · intro h
    rw [getAverageDelay_eq, hsub, if_neg (by omega)]
  · intro h
    show (if 0 < f.packetsSent then (f.packetsDropped : ℚ) / (f.packetsSent : ℚ) else 0)
      = (f.packetsDropped : ℚ) / (f.packetsSent : ℚ)
    rw [if_pos h]
  · intro h
    show (if 0 < f.packetsSent then (f.packetsDropped : ℚ) / (f.packetsSent : ℚ) else 0)
      = 0
    rw [if_neg (by omega)]

theorem stats_formulas_spec_witness :
    (⟨1, FlowType.CONSTANT_RATE, 100, PacketPriority.MEDIUM, true, 10, 2, 0, 16⟩ :
        Flow).getAverageDelay = 16 / ((10 - 2 : Nat) : ℚ) :=
  (stats_formulas_spec
    ⟨1, FlowType.CONSTANT_RATE, 100, PacketPriority.MEDIUM, true, 10, 2, 0, 16⟩ 1
    (by decide) (by decide)).1 (by decide)

end QoSim
